import Mathlib

/-!
Verification of the `material` repository's two procedural cores against its
specification: the daemonization routine (`src/deamon/deamon.c`) and the
echo/relay service loops (`src/network/*.c`), plus the `readLine` helper of
`src/network/test_client.c`.

Machine bytes are modelled as natural numbers below 256; file descriptors and
C `int` return values as `Int`; each program's interaction with the kernel
(results of `fork`, `setsid`, `read`, `write`, ...) is supplied explicitly as
an environment or as a list of call results, so every loop becomes a total
function on that data.
-/

/-- Model of the C library `toupper` in the POSIX locale, as called by
`unixDomainDgramServer.c` line 53 and `inetDomainDgramServer.c` line 66 on an
`unsigned char` argument: a lowercase ASCII letter (code 97..122) maps to the
letter 32 below it; every other byte value is returned unchanged. -/
def c_toupper (b : Nat) : Nat :=
  if 97 ≤ b ∧ b ≤ 122 then b - 32 else b

/-! ## Daemonizer (`src/deamon/deamon.c`, `becomeDeamon`) -/

/-- Kernel responses consumed by one run of `becomeDeamon`: the return values
of the two `fork` calls (as seen by the caller: `-1` failure, `0` child,
positive pid parent), of `setsid`, of `sysconf(_SC_OPEN_MAX)`, of
`open("/dev/null", O_RDWR)`, and of the two `dup2` calls. -/
structure OsEnv where
  fork1 : Int
  setsidRes : Int
  fork2 : Int
  sysconfOpenMax : Int
  openRes : Int
  dup2Out : Int
  dup2Err : Int

/-- How a run of `becomeDeamon` ends in the process that executes the return:
either the function returns an `Int` to its caller, or the process running it
calls `_exit` (the parent branches of the two forks). -/
inductive DRes where
  | ret (v : Int)
  | exited
deriving DecidableEq, Repr

/-- Observable trace of one `becomeDeamon` run: how it ended, the descriptors
passed to `close` in order, whether `umask(0)` ran, and whether `chdir("/")`
ran. -/
structure DaemonTrace where
  result : DRes
  closedFds : List Nat
  umaskCleared : Bool
  chdirRoot : Bool
deriving DecidableEq, Repr

/-- Shallow embedding of `becomeDeamon` (`src/deamon/deamon.c` lines 16-67).
The flags argument is the unused placeholder of the C signature.  Failure of
the first `fork` returns `-1`; a positive `fork` result is the parent, which
calls `_exit`.  In the child, `setsid() == -1` returns `-1`; the second fork
repeats the pattern.  The grandchild clears the umask, changes directory to
the root, closes descriptors `0 ≤ fd < maxfd` where `maxfd` is
`sysconf(_SC_OPEN_MAX)` or the fallback `8192` when that query returns `-1`,
reopens `/dev/null` (must yield descriptor 0), and duplicates descriptor 0
onto 1 and 2 (each must yield exactly its target), returning `-1` on any
mismatch and `0` on success. -/
def becomeDeamon (env : OsEnv) (_flags : Int) : DaemonTrace :=
  if env.fork1 = -1 then ⟨.ret (-1), [], false, false⟩
  else if env.fork1 ≠ 0 then ⟨.exited, [], false, false⟩
  else if env.setsidRes = -1 then ⟨.ret (-1), [], false, false⟩
  else if env.fork2 = -1 then ⟨.ret (-1), [], false, false⟩
  else if env.fork2 ≠ 0 then ⟨.exited, [], false, false⟩
  else
    let maxfd : Int := if env.sysconfOpenMax = -1 then 8192 else env.sysconfOpenMax
    let closed := List.range maxfd.toNat
    if env.openRes ≠ 0 then ⟨.ret (-1), closed, true, true⟩
    else if env.dup2Out ≠ 1 then ⟨.ret (-1), closed, true, true⟩
    else if env.dup2Err ≠ 2 then ⟨.ret (-1), closed, true, true⟩
    else ⟨.ret 0, closed, true, true⟩

/-! ## Connection-oriented service loop (`src/network/unixDomainStreamServer.c`)
and the matching client send loop (`src/network/unixDomainStreamClient.c`). -/

/-- Result of one `read(fd, buf, BUF_SIZE)` call as the loop sees it: `data bs`
stands for a return value of `bs.length` with the bytes `bs` placed in the
buffer (so `data []` is the zero return signalling end-of-stream), and `fail`
stands for a return value of `-1`. -/
inductive ReadRes where
  | data (bs : List Nat)
  | fail
deriving DecidableEq, Repr

/-- How the per-connection serving code of the stream server ends: the
connection is closed and control returns to `accept` (`closedOk`); or the
process terminates through `errExit` after a failed `read`, a `write` that
returned something other than the requested count, or a failed `close`; or
the modelled input ran out while the loop would still block in `read`. -/
inductive ServeEnd where
  | closedOk
  | exitReadError
  | exitWriteError
  | exitCloseError
  | blockedInRead
deriving DecidableEq, Repr

/-- Observable trace of serving one accepted connection: how the iteration
ended, every byte written to `STDOUT_FILENO`, and every byte written back to
the peer descriptor `cfd`. -/
structure ServeTrace where
  ending : ServeEnd
  stdoutBytes : List Nat
  peerBytes : List Nat
deriving DecidableEq, Repr

/-- Shallow embedding of the per-connection body of `main` in
`unixDomainStreamServer.c` lines 66-74: `while ((numRead = read(cfd, buf,
BUF_SIZE)) > 0) if (write(STDOUT_FILENO, buf, numRead) != numRead)
errExit(...)`, then `errExit` on `numRead == -1`, then `close(cfd)` with
`errExit` on failure.  `reads` lists the successive `read` results, `deliver
bs` is the return value of the `write` call issued for the chunk `bs` (a
short delivery puts only the first `deliver bs` bytes on stdout before the
process exits), and `closeOk` tells whether the final `close` succeeds. -/
def serveConnection (reads : List ReadRes) (deliver : List Nat → Nat)
    (closeOk : Bool) : ServeTrace :=
  match reads with
  | [] => ⟨.blockedInRead, [], []⟩
  | .fail :: _ => ⟨.exitReadError, [], []⟩
  | .data bs :: rest =>
      if bs.length = 0 then
        if closeOk then ⟨.closedOk, [], []⟩ else ⟨.exitCloseError, [], []⟩
      else
        let d := deliver bs
        if d ≠ bs.length then ⟨.exitWriteError, bs.take d, []⟩
        else
          let t := serveConnection rest deliver closeOk
          ⟨t.ending, bs ++ t.stdoutBytes, t.peerBytes⟩

/-- A write oracle under which every `write` call delivers the full requested
count, as `write` on a regular descriptor commonly does. -/
def fullDeliver (bs : List Nat) : Nat := bs.length

/-- How the stream client's send loop ends: normal return after a zero `read`
from stdin, process exit after a short `write` or a failed `read`, or the
modelled stdin ran out while the loop would still block. -/
inductive ClientEnd where
  | success
  | exitWriteError
  | exitReadError
  | blockedInRead
deriving DecidableEq, Repr

/-- Observable trace of the stream client's send loop: how it ended, the bytes
actually delivered to the connected socket, and the number of `write` calls
issued. -/
structure ClientTrace where
  ending : ClientEnd
  sentBytes : List Nat
  writeCalls : Nat
deriving DecidableEq, Repr

/-- Shallow embedding of `main` in `unixDomainStreamClient.c` lines 39-46:
`while ((numRead = read(STDIN_FILENO, buf, BUF_SIZE)) > 0) if (write(cfd, buf,
numRead) != numRead) errExit(...)`, then `errExit` on `numRead == -1`, else
return `EXIT_SUCCESS`.  `reads` lists the stdin `read` results and `deliver`
gives each `write` call's return value, as in `serveConnection`. -/
def clientSendLoop (reads : List ReadRes) (deliver : List Nat → Nat) :
    ClientTrace :=
  match reads with
  | [] => ⟨.blockedInRead, [], 0⟩
  | .fail :: _ => ⟨.exitReadError, [], 0⟩
  | .data bs :: rest =>
      if bs.length = 0 then ⟨.success, [], 0⟩
      else
        let d := deliver bs
        if d ≠ bs.length then ⟨.exitWriteError, bs.take d, 1⟩
        else
          let t := clientSendLoop rest deliver
          ⟨t.ending, bs ++ t.sentBytes, t.writeCalls + 1⟩

/-! ## Datagram echo loop (`src/network/unixDomainDgramServer.c` lines 43-57
and `src/network/inetDomainDgramServer.c` lines 49-71, identical up to the
address family). -/

/-- The receive buffer size `BUF_SIZE` of both datagram servers. -/
def dgramBufSize : Nat := 10

/-- Shallow embedding of the datagram servers' `for (;;)` loop.  `buf` is the
current contents of the 10-byte `char buf[BUF_SIZE]`, which persists across
iterations; `msgs` pairs each arriving datagram's sender address with its
payload.  Each iteration receives `numBytes = min payload.length BUF_SIZE`
bytes into the front of the buffer (`recvfrom` truncates a longer datagram
silently), upcases exactly the first `numBytes` buffer bytes in place
(`for (j = 0; j < numBytes; j++) buf[j] = toupper(buf[j])`), and sends those
`numBytes` bytes back to the recorded sender.  The result pairs each sender
address with the payload sent back to it, in order. -/
def dgramServerLoop {α : Type} (buf : List Nat) (msgs : List (α × List Nat)) :
    List (α × List Nat) :=
  match msgs with
  | [] => []
  | (addr, payload) :: rest =>
      let received := payload.take dgramBufSize
      let numBytes := received.length
      let buf1 := received ++ buf.drop numBytes
      let buf2 := (buf1.take numBytes).map c_toupper ++ buf1.drop numBytes
      (addr, buf2.take numBytes) :: dgramServerLoop buf2 rest

/-! ## Line reader (`src/network/test_client.c`, `readLine`). -/

/-- Result of one single-byte `read(fd, &ch, 1)` call inside `readLine`:
a byte arrived, end-of-file (return 0), failure with `errno == EINTR`, or
failure with any other `errno`. -/
inductive ByteRes where
  | byte (b : Nat)
  | eof
  | eintr
  | rerr
deriving DecidableEq, Repr

/-- Observable outcome of one `readLine` call.  `retval` is the C return
value; `einval` tells whether the call failed the argument check (`errno`
set to `EINVAL`); `stored` lists the input bytes placed in
`buffer[0..stored.length-1]` in order; `nullWritten` tells whether the
terminating byte 0 was written (at index `stored.length`); `leftover` is the
part of the input stream the call did not consume; `blocked` marks a run
whose modelled input ran out while `readLine` would still block in `read`
(in that case the other fields describe only the work done so far). -/
structure RLOut where
  retval : Int
  einval : Bool
  stored : List Nat
  nullWritten : Bool
  leftover : List ByteRes
  blocked : Bool
deriving DecidableEq, Repr

/-- The `for (;;)` loop of `readLine` (`test_client.c` lines 32-54), with the
final `*buf = '\0'; return totRead;` of lines 56-57.  `cap` is `n - 1`, the
number of buffer slots before the terminator; `acc` is the bytes stored so
far (so `totRead = acc.length`).  A byte is stored only while
`totRead < n - 1`; a newline always breaks the loop, stored or not; `EINTR`
retries the read; any other read failure returns `-1`; end-of-file returns
`0` if nothing was read yet and otherwise breaks the loop. -/
def rlGo (cap : Nat) (acc : List Nat) : List ByteRes → RLOut
  | [] => ⟨0, false, acc, false, [], true⟩
  | .eintr :: rest => rlGo cap acc rest
  | .rerr :: rest => ⟨-1, false, acc, false, rest, false⟩
  | .eof :: rest =>
      if acc.length = 0 then ⟨0, false, acc, false, rest, false⟩
      else ⟨(acc.length : Int), false, acc, true, rest, false⟩
  | .byte b :: rest =>
      let acc2 := if acc.length < cap then acc ++ [b] else acc
      if b = 10 then ⟨(acc2.length : Int), false, acc2, true, rest, false⟩
      else rlGo cap acc2 rest

/-- Shallow embedding of `readLine(fd, buffer, n)` (`test_client.c` lines
16-58).  `bufNull` models `buffer == NULL`; `n` is the C `size_t` argument,
an unsigned value, hence a `Nat`, on which the code's `n <= 0` test holds
exactly for `n = 0`; `input` lists the results the underlying descriptor
yields to successive one-byte reads.  When `n ≤ 0` or the buffer is null the
call sets `errno = EINVAL` and returns `-1` without touching the input;
otherwise it runs the read loop with capacity `n - 1`. -/
def readLine (bufNull : Bool) (n : Nat) (input : List ByteRes) : RLOut :=
  if n ≤ 0 ∨ bufNull then ⟨-1, true, [], false, input, false⟩
  else rlGo (n - 1) [] input

/-! ## General lemmas about the embedded loops. -/

/-- When every chunk arriving on the connection is nonempty, every `write`
delivers in full, and the stream ends with a zero-byte read, the serving loop
copies the chunks to stdout in order, writes nothing to the peer, and ends by
closing the connection (an error exit exactly when `close` fails). -/
theorem serveConnection_full (chunks : List (List Nat)) (closeOk : Bool)
    (h : ∀ c ∈ chunks, c ≠ []) :
    serveConnection (chunks.map ReadRes.data ++ [ReadRes.data []]) fullDeliver closeOk
      = ⟨if closeOk then .closedOk else .exitCloseError, chunks.flatten, []⟩ := by
  induction chunks with
  | nil => cases closeOk <;> simp [serveConnection]
  | cons c cs ih =>
      have hc : c.length ≠ 0 := by
        simpa using h c (by simp)
      have ih2 := ih (fun x hx => h x (by simp [hx]))
      simp [serveConnection, fullDeliver, hc, ih2]

/-- A `write` on the server that returns a count different from the requested
one makes the process exit through `errExit` at once, with only the delivered
prefix on stdout. -/
theorem serveConnection_shortwrite (bs : List Nat) (rest : List ReadRes)
    (deliver : List Nat → Nat) (closeOk : Bool)
    (h0 : bs ≠ []) (h : deliver bs ≠ bs.length) :
    serveConnection (ReadRes.data bs :: rest) deliver closeOk
      = ⟨.exitWriteError, bs.take (deliver bs), []⟩ := by
  have h1 : bs.length ≠ 0 := by simpa using h0
  simp [serveConnection, h1, h]

/-- A `write` on the client that returns a count different from the requested
one makes the process exit through `errExit` after that single call, with only
the delivered prefix sent. -/
theorem clientSendLoop_shortwrite (bs : List Nat) (rest : List ReadRes)
    (deliver : List Nat → Nat)
    (h0 : bs ≠ []) (h : deliver bs ≠ bs.length) :
    clientSendLoop (ReadRes.data bs :: rest) deliver
      = ⟨.exitWriteError, bs.take (deliver bs), 1⟩ := by
  have h1 : bs.length ≠ 0 := by simpa using h0
  simp [clientSendLoop, h1, h]

/-- Closed form of the datagram server loop: each message is answered to its
own sender with the uppercase image of its first `BUF_SIZE` bytes, and the
answer does not depend on the buffer contents left by earlier messages. -/
theorem dgramServerLoop_eq_map {α : Type} (buf : List Nat)
    (msgs : List (α × List Nat)) :
    dgramServerLoop buf msgs
      = msgs.map (fun m => (m.1, (m.2.take dgramBufSize).map c_toupper)) := by
  induction msgs generalizing buf with
  | nil => rfl
  | cons m rest ih =>
      obtain ⟨addr, payload⟩ := m
      have htake : ((payload.take dgramBufSize)
            ++ buf.drop (payload.take dgramBufSize).length).take
              (payload.take dgramBufSize).length
          = payload.take dgramBufSize := by
        rw [List.take_append_of_le_length (Nat.le_refl _), List.take_length]
      simp only [dgramServerLoop, htake, List.map_cons]
      refine congrArg₂ List.cons ?_ (ih _)
      refine congrArg (Prod.mk addr) ?_
      rw [List.take_append_of_le_length (by simp), List.take_of_length_le (by simp)]

/-- The bytes `readLine` stores never outgrow the capacity `cap = n - 1`. -/
theorem rlGo_stored_le (input : List ByteRes) :
    ∀ (cap : Nat) (acc : List Nat), acc.length ≤ cap →
      ((rlGo cap acc input).stored.length ≤ cap) := by
  induction input with
  | nil => intro cap acc h; simpa [rlGo] using h
  | cons r rest ih =>
      intro cap acc h
      cases r with
      | eintr => simpa [rlGo] using ih cap acc h
      | rerr => simpa [rlGo] using h
      | eof =>
          by_cases h0 : acc.length = 0 <;> simp [rlGo, h0, h]
      | byte b =>
          by_cases hlt : acc.length < cap
          · by_cases hb : b = 10
            · simp [rlGo, hlt, hb]; omega
            · have := ih cap (acc ++ [b]) (by simp; omega)
              simpa [rlGo, hlt, hb] using this
          · by_cases hb : b = 10
            · simp [rlGo, hlt, hb, h]
            · have := ih cap acc h
              simpa [rlGo, hlt, hb] using this

/-- A completed `rlGo` run returns `-1` (a read error, no terminator written)
or the number of bytes stored. -/
theorem rlGo_retval (input : List ByteRes) :
    ∀ (cap : Nat) (acc : List Nat), (rlGo cap acc input).blocked = false →
      ((rlGo cap acc input).retval = -1 ∧ (rlGo cap acc input).nullWritten = false)
        ∨ (rlGo cap acc input).retval = ((rlGo cap acc input).stored.length : Int) := by
  induction input with
  | nil => intro cap acc h; simp [rlGo] at h
  | cons r rest ih =>
      intro cap acc h
      cases r with
      | eintr => simpa [rlGo] using ih cap acc (by simpa [rlGo] using h)
      | rerr => left; simp [rlGo]
      | eof =>
          by_cases h0 : acc.length = 0
          · right; simp [rlGo, h0]
          · right; simp [rlGo, h0]
      | byte b =>
          by_cases hb : b = 10
          · right; simp [rlGo, hb]
          · have hbl : (rlGo cap (if acc.length < cap then acc ++ [b] else acc) rest).blocked
                = false := by
              simpa [rlGo, hb] using h
            simpa [rlGo, hb] using ih cap _ hbl

/-- With capacity zero (the `n = 1` call) the loop never stores a byte. -/
theorem rlGo_capzero (input : List ByteRes) :
    ∀ (acc : List Nat), (rlGo 0 acc input).stored = acc := by
  induction input with
  | nil => intro acc; simp [rlGo]
  | cons r rest ih =>
      intro acc
      cases r with
      | eintr => simpa [rlGo] using ih acc
      | rerr => simp [rlGo]
      | eof => by_cases h0 : acc.length = 0 <;> simp [rlGo, h0]
      | byte b =>
          by_cases hb : b = 10 <;> simp [rlGo, hb, ih]

/-- The loop keeps consuming input, stored or not, until the first newline;
everything after that newline is untouched. -/
theorem rlGo_discard (bs : List Nat) :
    ∀ (cap : Nat) (acc : List Nat) (post : List ByteRes), (∀ b ∈ bs, b ≠ 10) →
      (rlGo cap acc (bs.map ByteRes.byte ++ ByteRes.byte 10 :: post)).leftover = post := by
  induction bs with
  | nil => intro cap acc post _; simp [rlGo]
  | cons b bs ih =>
      intro cap acc post h
      have hb : b ≠ 10 := h b (by simp)
      have hrest : ∀ x ∈ bs, x ≠ 10 := fun x hx => h x (by simp [hx])
      simpa [rlGo, hb] using ih cap _ post hrest

/-! ## Claims. -/

/-- C1, counterexample.  Feeding the bytes of `"hello"` (104 101 108 108 111)
to the connection-oriented serving loop, followed by the end-of-stream read,
writes those bytes unchanged to standard output and writes nothing at all
back to the peer connection: the response on the peer is empty, not the
transformed bytes `"HELLO"` (72 69 76 76 79) the claim requires. -/
theorem c1_counterexample :
    serveConnection [ReadRes.data [104, 101, 108, 108, 111], ReadRes.data []]
        fullDeliver true
      = ⟨ServeEnd.closedOk, [104, 101, 108, 108, 111], []⟩ ∧
    [104, 101, 108, 108, 111].map c_toupper = [72, 69, 76, 76, 79] ∧
    ([] : List Nat) ≠ [72, 69, 76, 76, 79] := by
  refine ⟨rfl, by decide, by decide⟩

/-- C1, amended.  In the connection-oriented service, every serving iteration
reads a chunk from the accepted peer connection and writes that chunk
unchanged to standard output, not back to the peer; no byte transform is
applied, and the loop repeats until a read returns zero bytes (end-of-stream)
or fails.  In particular, sending the bytes `"hello"` puts the bytes
`"hello"` on standard output and returns no bytes to the peer. -/
theorem c1_stream_relays_to_stdout (chunks : List (List Nat))
    (h : ∀ c ∈ chunks, c ≠ []) :
    serveConnection (chunks.map ReadRes.data ++ [ReadRes.data []]) fullDeliver true
      = ⟨ServeEnd.closedOk, chunks.flatten, []⟩ := by
  simpa using serveConnection_full chunks true h

/-- C1 witness: serving the single chunk `"hello"` ends cleanly with the bytes
of `"hello"` on stdout and nothing on the peer. -/
theorem c1_stream_relays_to_stdout_witness :
    serveConnection [ReadRes.data [104, 101, 108, 108, 111], ReadRes.data []]
        fullDeliver true
      = ⟨ServeEnd.closedOk, [104, 101, 108, 108, 111], []⟩ := by
  simpa using c1_stream_relays_to_stdout [[104, 101, 108, 108, 111]] (by decide)

/-- C2: on every byte value, the transform applied by the datagram echo
servers agrees with the ASCII uppercase map (`Char.toUpper`), and any byte
that is not a lowercase ASCII letter passes through unchanged. -/
theorem c2_transform_uppercases : ∀ b : Fin 256,
    c_toupper b.val = ((Char.ofNat b.val).toUpper).toNat ∧
    ((97 ≤ b.val ∧ b.val ≤ 122) ∨ c_toupper b.val = b.val) := by
  set_option maxRecDepth 10000 in decide

/-- C3, counterexample.  Three different failure causes of `becomeDeamon` —
the first `fork` failing, `setsid` failing, and the `/dev/null` reopen not
yielding descriptor 0 — all return the same value `-1`, so the failure cause
is not distinguishable from the returned result alone. -/
theorem c3_counterexample :
    (becomeDeamon ⟨-1, 0, 0, 100, 0, 1, 2⟩ 0).result = DRes.ret (-1) ∧
    (becomeDeamon ⟨0, -1, 0, 100, 0, 1, 2⟩ 0).result = DRes.ret (-1) ∧
    (becomeDeamon ⟨0, 5, 0, 100, 3, 1, 2⟩ 0).result = DRes.ret (-1) := by
  refine ⟨rfl, rfl, rfl⟩

/-- C3, amended.  The daemonizer surfaces every failure condition — fork
failure, setsid failure, descriptor reopen/duplication mismatch — as the same
negative return value `-1`: the result distinguishes failure from success
(`0`) but not one failure cause from another. -/
theorem c3_single_failure_value (env : OsEnv) (flags : Int) (v : Int)
    (h : (becomeDeamon env flags).result = DRes.ret v) : v = 0 ∨ v = -1 := by
  unfold becomeDeamon at h
  split_ifs at h <;> simp_all

/-- C3 witness: the fork-failure run returns a value that is `0` or `-1`. -/
theorem c3_single_failure_value_witness : (-1 : Int) = 0 ∨ (-1 : Int) = -1 :=
  c3_single_failure_value ⟨-1, 0, 0, 100, 0, 1, 2⟩ 0 (-1) rfl

/-- C4: on any run that reaches the descriptor stage (both forks continue in
the child, `setsid` succeeds), `becomeDeamon` closes exactly the descriptors
`0, 1, ..., maxfd - 1` where `maxfd` is the `sysconf` limit, or the fixed
bound `8192` when that query fails with `-1`; it returns success iff the
`/dev/null` reopen yields exactly descriptor `0` and the two duplications
yield exactly `1` and `2`, and returns the error value `-1` otherwise. -/
theorem c4_descriptor_discipline (ss sc op d1 d2 flags : Int) (h2 : ss ≠ -1) :
    (becomeDeamon ⟨0, ss, 0, sc, op, d1, d2⟩ flags).closedFds
        = List.range (if sc = -1 then 8192 else sc.toNat) ∧
    ((becomeDeamon ⟨0, ss, 0, sc, op, d1, d2⟩ flags).result = DRes.ret 0 ↔
        op = 0 ∧ d1 = 1 ∧ d2 = 2) ∧
    (¬(op = 0 ∧ d1 = 1 ∧ d2 = 2) →
        (becomeDeamon ⟨0, ss, 0, sc, op, d1, d2⟩ flags).result = DRes.ret (-1)) := by
  unfold becomeDeamon
  simp only [h2]
  norm_num
  split_ifs <;> simp_all

/-- C4 witness: with the limit query failing and the reopen/duplications
yielding 0, 1, 2, the run closes descriptors 0..8191 and succeeds. -/
theorem c4_descriptor_discipline_witness :
    (becomeDeamon ⟨0, 5, 0, -1, 0, 1, 2⟩ 0).closedFds = List.range 8192 ∧
    (becomeDeamon ⟨0, 5, 0, -1, 0, 1, 2⟩ 0).result = DRes.ret 0 := by
  obtain ⟨h1, h2, _⟩ := c4_descriptor_discipline 5 (-1) 0 1 2 0 (by decide)
  exact ⟨by simpa using h1, h2.mpr ⟨rfl, rfl, rfl⟩⟩

/-- C5, counterexample.  In the stream client's send loop, a `write` that
delivers 1 of the 2 requested bytes is not retried: the loop issues exactly
one `write` call, leaves the second byte unsent, and exits the process as an
error, contradicting the claim that the caller retries until the full buffer
is sent. -/
theorem c5_counterexample :
    clientSendLoop [ReadRes.data [104, 105]] (fun _ => 1)
      = ⟨ClientEnd.exitWriteError, [104], 1⟩ := rfl

/-- C5, amended.  Whenever a transport write delivers fewer bytes than
requested, the program does not retry: both the stream server's stdout-write
loop and the stream client's socket-write loop terminate the process as a
fatal error after that single write call, leaving the remainder of the
buffer unsent. -/
theorem c5_partial_write_is_fatal (bs : List Nat) (rest : List ReadRes)
    (deliver : List Nat → Nat) (closeOk : Bool)
    (h0 : bs ≠ []) (h : deliver bs < bs.length) :
    clientSendLoop (ReadRes.data bs :: rest) deliver
        = ⟨ClientEnd.exitWriteError, bs.take (deliver bs), 1⟩ ∧
    serveConnection (ReadRes.data bs :: rest) deliver closeOk
        = ⟨ServeEnd.exitWriteError, bs.take (deliver bs), []⟩ :=
  ⟨clientSendLoop_shortwrite bs rest deliver h0 (Nat.ne_of_lt h),
   serveConnection_shortwrite bs rest deliver closeOk h0 (Nat.ne_of_lt h)⟩

/-- C5 witness: a write delivering 1 of 2 bytes ends both loops in the
write-error exit after one call. -/
theorem c5_partial_write_is_fatal_witness :
    clientSendLoop [ReadRes.data [104, 105]] (fun _ => 1)
        = ⟨ClientEnd.exitWriteError, [104], 1⟩ ∧
    serveConnection [ReadRes.data [104, 105]] (fun _ => 1) true
        = ⟨ServeEnd.exitWriteError, [104], []⟩ := by
  simpa using c5_partial_write_is_fatal [104, 105] [] (fun _ => 1) true
    (by decide) (by decide)

/-- C6: the datagram echo loop answers each arriving message independently:
every response goes to that message's recorded sender address and carries the
byte transform of the full received message (the payload as truncated to the
receive buffer), and the result does not depend on the buffer contents left
behind by earlier messages — no per-sender state is carried between
iterations. -/
theorem c6_dgram_messages_independent {α : Type} (buf : List Nat)
    (msgs : List (α × List Nat)) :
    dgramServerLoop buf msgs
      = msgs.map (fun m => (m.1, (m.2.take dgramBufSize).map c_toupper)) :=
  dgramServerLoop_eq_map buf msgs

/-- C7, counterexample.  A `write` whose return value differs from the
requested count is also treated as an error by the serving loop (the process
exits through `errExit`), although it is neither a read returning a negative
result nor a failed close — so those two are not the only conditions treated
as errors. -/
theorem c7_counterexample :
    (serveConnection [ReadRes.data [104, 105]] (fun _ => 1) true).ending
        = ServeEnd.exitWriteError ∧
    ServeEnd.exitWriteError ≠ ServeEnd.exitReadError ∧
    ServeEnd.exitWriteError ≠ ServeEnd.exitCloseError := by
  refine ⟨rfl, by decide, by decide⟩

/-- C7, amended.  A read that returns zero bytes terminates that connection's
serving state without error: the peer handle is closed and the loop returns
to blocking in accept; a read returning a negative result, a failed close,
and a write returning a count different from the requested one are each
treated as an error. -/
theorem c7_zero_read_ends_cleanly :
    (∀ (chunks : List (List Nat)), (∀ c ∈ chunks, c ≠ []) →
        (serveConnection (chunks.map ReadRes.data ++ [ReadRes.data []])
            fullDeliver true).ending = ServeEnd.closedOk) ∧
    (∀ (rest : List ReadRes) (deliver : List Nat → Nat) (closeOk : Bool),
        (serveConnection (ReadRes.fail :: rest) deliver closeOk).ending
          = ServeEnd.exitReadError) ∧
    (∀ (chunks : List (List Nat)), (∀ c ∈ chunks, c ≠ []) →
        (serveConnection (chunks.map ReadRes.data ++ [ReadRes.data []])
            fullDeliver false).ending = ServeEnd.exitCloseError) ∧
    (∀ (bs : List Nat) (rest : List ReadRes) (deliver : List Nat → Nat)
        (closeOk : Bool), bs ≠ [] → deliver bs ≠ bs.length →
        (serveConnection (ReadRes.data bs :: rest) deliver closeOk).ending
          = ServeEnd.exitWriteError) := by
  refine ⟨?_, ?_, ?_, ?_⟩
  · intro chunks h
    rw [serveConnection_full chunks true h]
    simp
  · intro rest deliver closeOk
    rfl
  · intro chunks h
    rw [serveConnection_full chunks false h]
    simp
  · intro bs rest deliver closeOk h0 h
    rw [serveConnection_shortwrite bs rest deliver closeOk h0 h]

/-- C7 witness: one chunk then end-of-stream ends in a clean close; a failing
read, a failing close, and a short write each end in the matching error. -/
theorem c7_zero_read_ends_cleanly_witness :
    (serveConnection [ReadRes.data [104], ReadRes.data []] fullDeliver true).ending
        = ServeEnd.closedOk ∧
    (serveConnection [ReadRes.fail] fullDeliver true).ending
        = ServeEnd.exitReadError ∧
    (serveConnection [ReadRes.data [104], ReadRes.data []] fullDeliver false).ending
        = ServeEnd.exitCloseError ∧
    (serveConnection [ReadRes.data [104, 105]] (fun _ => 1) true).ending
        = ServeEnd.exitWriteError := by
  obtain ⟨p1, p2, p3, p4⟩ := c7_zero_read_ends_cleanly
  refine ⟨?_, p2 [] fullDeliver true, ?_, p4 [104, 105] [] (fun _ => 1) true
    (by decide) (by decide)⟩
  · simpa using p1 [[104]] (by decide)
  · simpa using p3 [[104]] (by decide)

/-- C8: the byte transform of the echo servers is idempotent on every natural
number, in particular on every byte: transforming twice equals transforming
once. -/
theorem c8_transform_idempotent : ∀ b : Nat,
    c_toupper (c_toupper b) = c_toupper b := by
  intro b
  simp only [c_toupper]
  split_ifs <;> omega

/-- C9: a datagram longer than the fixed 10-byte receive buffer is silently
truncated: the response to its sender is the byte transform of the first 10
bytes only, is strictly shorter than the sent payload (the excess bytes are
discarded), and the loop goes on serving the remaining messages normally —
no error reaches either side. -/
theorem c9_datagram_truncation {α : Type} (buf : List Nat) (addr : α)
    (payload : List Nat) (rest : List (α × List Nat))
    (h : dgramBufSize < payload.length) :
    dgramServerLoop buf ((addr, payload) :: rest)
      = (addr, (payload.take dgramBufSize).map c_toupper)
          :: rest.map (fun m => (m.1, (m.2.take dgramBufSize).map c_toupper)) ∧
    ((payload.take dgramBufSize).map c_toupper).length = dgramBufSize ∧
    ((payload.take dgramBufSize).map c_toupper).length < payload.length := by
  refine ⟨by rw [dgramServerLoop_eq_map]; rfl, ?_, ?_⟩
  · simp [dgramBufSize] at h ⊢; omega
  · simp [dgramBufSize] at h ⊢; omega

/-- C9 witness: an 11-byte datagram of the letters `a..k` is answered with
the 10 uppercase letters `A..J`; the eleventh byte is dropped. -/
theorem c9_datagram_truncation_witness :
    dgramServerLoop ([] : List Nat)
        [((0 : Nat), [97, 98, 99, 100, 101, 102, 103, 104, 105, 106, 107])]
      = [((0 : Nat), [65, 66, 67, 68, 69, 70, 71, 72, 73, 74])] := by
  have h := (c9_datagram_truncation ([] : List Nat) (0 : Nat)
      [97, 98, 99, 100, 101, 102, 103, 104, 105, 106, 107] [] (by decide)).1
  rw [h]
  decide

/-- C10, counterexample.  `readLine` with `n = 1` on the input
`'x', '\n', 'c'` completes (no blocking, no EINVAL) and returns `0` even
though end-of-file is nowhere in the input: the zero return does not occur
exactly when end-of-file is reached before any byte is read. -/
theorem c10_counterexample :
    (readLine false 1 [ByteRes.byte 120, ByteRes.byte 10, ByteRes.byte 99]).retval
        = 0 ∧
    (readLine false 1 [ByteRes.byte 120, ByteRes.byte 10, ByteRes.byte 99]).blocked
        = false ∧
    (readLine false 1 [ByteRes.byte 120, ByteRes.byte 10, ByteRes.byte 99]).einval
        = false ∧
    ByteRes.eof ∉ [ByteRes.byte 120, ByteRes.byte 10, ByteRes.byte 99] := by
  refine ⟨rfl, rfl, rfl, by decide⟩

/-- C10, amended.  `readLine(fd, buffer, n)` returns `-1` with `errno` set to
`EINVAL` when `n ≤ 0` (for the unsigned size argument: `n = 0`) or the buffer
is `NULL`; otherwise it stores at most `n - 1` input bytes followed by a
terminating null byte, never writing past the `n`-byte buffer; a completed
call returns `-1` on a read error and otherwise returns the number of bytes
stored — which is `0` not only when end-of-file is reached before any byte is
read but whenever no byte is stored, in particular for every completed
`n = 1` call; input beyond the stored bytes is read and discarded until a
newline or end-of-file is seen. -/
theorem c10_readLine_contract :
    (∀ (bufNull : Bool) (n : Nat) (input : List ByteRes), n ≤ 0 ∨ bufNull = true →
        readLine bufNull n input = ⟨-1, true, [], false, input, false⟩) ∧
    (∀ (n : Nat) (input : List ByteRes), 1 ≤ n →
        (readLine false n input).stored.length ≤ n - 1) ∧
    (∀ (n : Nat) (input : List ByteRes), 1 ≤ n →
        (readLine false n input).blocked = false →
        ((readLine false n input).retval = -1
            ∧ (readLine false n input).nullWritten = false)
          ∨ (readLine false n input).retval
              = ((readLine false n input).stored.length : Int)) ∧
    (∀ (input : List ByteRes), (readLine false 1 input).stored = []) ∧
    (∀ (n : Nat) (bs : List Nat) (post : List ByteRes), 1 ≤ n →
        (∀ b ∈ bs, b ≠ 10) →
        (readLine false n (bs.map ByteRes.byte ++ ByteRes.byte 10 :: post)).leftover
          = post) := by
  refine ⟨?_, ?_, ?_, ?_, ?_⟩
  · intro bufNull n input h
    rcases h with h | h
    · have hn : n = 0 := by omega
      subst hn
      simp [readLine]
    · subst h
      simp [readLine]
  · intro n input hn
    have hn0 : ¬(n = 0) := by omega
    have := rlGo_stored_le input (n - 1) [] (by simp)
    simpa [readLine, hn0] using this
  · intro n input hn hb
    have hn0 : ¬(n = 0) := by omega
    have hb2 : (rlGo (n - 1) [] input).blocked = false := by
      simpa [readLine, hn0] using hb
    have := rlGo_retval input (n - 1) [] hb2
    simpa [readLine, hn0] using this
  · intro input
    have := rlGo_capzero input []
    simpa [readLine] using this
  · intro n bs post hn h
    have hn0 : ¬(n = 0) := by omega
    have := rlGo_discard bs (n - 1) [] post h
    simpa [readLine, hn0] using this

/-- C10 witness: the EINVAL path on a null buffer, the capacity bound and the
returned count for a 30-byte call reading `"h\n"`, the empty store of an
`n = 1` call at end-of-file, and the discarding of a line beyond a 2-byte
buffer. -/
theorem c10_readLine_contract_witness :
    readLine true 5 [] = ⟨-1, true, [], false, [], false⟩ ∧
    (readLine false 30 [ByteRes.byte 104, ByteRes.byte 10]).stored.length ≤ 29 ∧
    (((readLine false 30 [ByteRes.byte 104, ByteRes.byte 10]).retval = -1
        ∧ (readLine false 30 [ByteRes.byte 104, ByteRes.byte 10]).nullWritten = false)
      ∨ (readLine false 30 [ByteRes.byte 104, ByteRes.byte 10]).retval
          = ((readLine false 30 [ByteRes.byte 104, ByteRes.byte 10]).stored.length : Int)) ∧
    (readLine false 1 [ByteRes.eof]).stored = [] ∧
    (readLine false 2 ([97, 98].map ByteRes.byte ++ ByteRes.byte 10 :: [ByteRes.eof])).leftover
        = [ByteRes.eof] := by
  obtain ⟨p1, p2, p3, p4, p5⟩ := c10_readLine_contract
  exact ⟨p1 true 5 [] (Or.inr rfl),
    p2 30 [ByteRes.byte 104, ByteRes.byte 10] (by omega),
    p3 30 [ByteRes.byte 104, ByteRes.byte 10] (by omega) rfl,
    p4 [ByteRes.eof],
    p5 2 [97, 98] [ByteRes.eof] (by omega) (by decide)⟩
